import Mathlib

/-!
# Verification of SerialMux (src/SerialMux.py)

A shallow embedding of the serial-port multiplexer's event loop.

State and effects are made explicit: each OS/serial interaction consumes an
outcome supplied by an oracle (`IterInput`), and every side effect performed by
the program is recorded in an event trace (`List Event`).  The step functions
below are direct translations of the corresponding Python code:

* `create_vport`, `recreate_vport` — lines 33–67;
* `open_serial`                    — lines 71–80 (a `while True` retry loop,
  embedded with explicit fuel);
* `cleanup`                        — lines 84–95;
* `loopBody`                       — one iteration of the `while True` loop of
  `main` (lines 116–230), decomposed into `dispatch` (step 3, lines 134–197,
  with `broadcast` for lines 153–161 and `handleVportRead` for lines 168–184),
  `probeStep` (step 4, lines 199–216), `sweep` (step 5, lines 218–222) and
  `statsStep` (step 6, lines 224–230).
-/

namespace SerialMux

/-- Error kinds distinguished by the source (`errno.EAGAIN`, `errno.EINTR`,
`errno.EIO`); `other n` stands for any other `errno` value `n`. -/
inductive Errno where
  | eagain
  | eintr
  | eio
  | other (n : Nat)
deriving DecidableEq, Repr

/-- A virtual endpoint record, translating the dict literal returned at line 55:
`{'master_fd': master, 'path': path, 'slave_name': slave_name, 'alive': True,
'idle': True}`. -/
structure VPort where
  master_fd : Nat
  path : String
  slave_name : String
  alive : Bool
  idle : Bool
deriving DecidableEq, Repr

inductive LogLevel where
  | debug
  | info
  | warning
deriving DecidableEq, Repr

/-- Observable effects of the program.  `writeVPort`/`readVPort`/`probeRead`
record, besides the fd operated on, the value of the endpoint's flags at the
moment the operation is performed (read off the state being threaded at that
point). -/
inductive Event where
  | log (lvl : LogLevel)
  | serReadEv (data : List Nat)
  | writeVPort (fd : Nat) (aliveAtOp : Bool)
  | readVPort (fd : Nat) (aliveAtOp : Bool)
  | serWrite (data : List Nat)
  | serClose
  | serOpen (h : Nat)
  | probeRead (fd : Nat) (aliveAtOp idleAtOp : Bool)
  | closeFd (fd : Nat)
  | createVPort (path : String) (fd : Nat)
  | unlink (path : String)
  | sleepSec (n : Nat)
  | statsEv
  | exitOk
deriving DecidableEq, Repr

/-- Result of an `os.read` / `ser.read` call: data returned (possibly empty,
meaning end of stream for `os.read`), or an `OSError` with an errno. -/
inductive RRes where
  | ok (data : List Nat)
  | err (e : Errno)
deriving DecidableEq, Repr

/-- Result of an `os.write` call. -/
inductive WRes where
  | ok
  | err (e : Errno)
deriving DecidableEq, Repr

/-- Result of the `select.select` call at line 128: benign interruption
(`EINTR` / `InterruptedError`, line 130), any other `OSError` (re-raised,
line 132), or a list of readable fds. -/
inductive SelectResult where
  | eintr
  | fatal (n : Nat)
  | ready (fds : List Nat)
deriving DecidableEq, Repr

/-- Mutable state of `main`'s loop: the serial handle, the endpoint list and
the counters (lines 105–114). -/
structure MuxState where
  ser : Nat
  vports : List VPort
  bytes_from_device : Nat
  bytes_to_device : Nat
  last_stats : Nat
deriving DecidableEq, Repr

/-- Oracle for one loop iteration: the outcome of every environment
interaction the iteration may perform. -/
structure IterInput where
  /-- `ser.fileno()` raising at line 119–121 (then `ser_fd = -1`). -/
  filenoFails : Bool
  sel : SelectResult
  /-- Outcome of `ser.read(ser.in_waiting or 1)` (line 139). -/
  serRead : RRes
  /-- Outcome of `os.write(v['master_fd'], data)` in the broadcast (line 155),
  per master fd. -/
  bcastWrite : Nat → WRes
  /-- Outcome of `os.read(fd, 4096)` (line 169), per fd. -/
  vpRead : Nat → RRes
  /-- Outcome of `ser.write(data)` (line 189) for data coming from a given fd;
  `false` means `SerialException`/`OSError`. -/
  serWriteOk : Nat → Bool
  /-- Outcome of the probing `os.read(v['master_fd'], 1)` (line 203), per fd. -/
  probeRes : Nat → RRes
  /-- Handle produced by `open_serial` on reconnection (lines 148, 196). -/
  reopen : Nat
  /-- Fresh master fd chosen by `os.openpty` when recreating the endpoint
  published at a given path. -/
  freshFd : String → Nat
  /-- Fresh slave device name for the recreated endpoint at a given path. -/
  freshSlave : String → String
  /-- `os.path.islink(path)` at line 35. -/
  linkExists : String → Bool
  /-- `time.monotonic()` at line 225, in whole seconds. -/
  now : Nat

/-! ## Virtual port manager (lines 33–67) -/

/-- The record `create_vport` returns (line 55). -/
def freshVPort (path slave : String) (fd : Nat) : VPort :=
  { master_fd := fd, path := path, slave_name := slave, alive := true, idle := true }

/-- `create_vport(path)`, lines 33–55: unlink a stale symlink, allocate a PTY
pair (the fresh master fd and slave name come from the oracle), publish it and
return an alive, idle record.  The openpty/setraw/chmod/symlink/close/fcntl
sequence is summarised by the `createVPort` event. -/
def create_vport (lnk : Bool) (path slave : String) (fd : Nat) : VPort × List Event :=
  (freshVPort path slave fd,
   (if lnk then [Event.unlink path] else []) ++
     [Event.createVPort path fd, Event.log LogLevel.info])

/-- `recreate_vport(vport)`, lines 58–67: best-effort close of the old master
fd, log, then `create_vport` at the same path. -/
def recreate_vport (lnk : Bool) (slave : String) (fd : Nat) (v : VPort) : VPort × List Event :=
  let r := create_vport lnk v.path slave fd
  (r.1, Event.closeFd v.master_fd :: Event.log LogLevel.info :: r.2)

/-! ## Real device connection (lines 71–80) -/

/-- `open_serial(port, baud)`, lines 71–80.  The attempt oracle gives the
outcome of `serial.Serial(port, baud, timeout=0)` for each successive try
(`none` = `SerialException`).  The `while True` loop is embedded with fuel:
`none` as overall result means the loop is still retrying after `fuel`
attempts — the function has no failing outcome. -/
def open_serial (attempts : Nat → Option Nat) : Nat → Option (Nat × List Event)
  | 0 => none
  | Nat.succ fuel =>
    match attempts 0 with
    | some h => some (h, [Event.serOpen h, Event.log LogLevel.info])
    | none =>
      match open_serial (fun k => attempts (k + 1)) fuel with
      | some r => some (r.1, Event.log LogLevel.warning :: Event.sleepSec 2 :: r.2)
      | none => none

/-- Trace of `open_serial` when the first `n` attempts fail and the next one
returns handle `h`: a warning and a 2 second sleep per failure, then the open
and its info log. -/
def retryEvents : Nat → Nat → List Event
  | 0, h => [Event.serOpen h, Event.log LogLevel.info]
  | Nat.succ n, h => Event.log LogLevel.warning :: Event.sleepSec 2 :: retryEvents n h

/-! ## Cleanup (lines 84–95) -/

/-- The three configured endpoint paths (line 7). -/
def VPORTS : List String := ["/dev/ttyV0", "/dev/ttyV1", "/dev/ttyV2"]

/-- The `for vport in _active_vports` loop of `cleanup` (lines 86–90):
`os.close` each master fd; the surrounding `try/except OSError: pass` means a
failing close (`closeFails`) has no observable effect on the trace. -/
def closeAllVports (closeFails : Nat → Bool) : List VPort → List Event
  | [] => []
  | v :: rest =>
    (if closeFails v.master_fd then [Event.closeFd v.master_fd]
     else [Event.closeFd v.master_fd]) ++ closeAllVports closeFails rest

/-- The `for path in VPORTS` loop of `cleanup` (lines 91–94): unlink each
published path that is a symlink, with an info log. -/
def removeLinks (lnk : String → Bool) : List String → List Event
  | [] => []
  | p :: rest =>
    (if lnk p then [Event.unlink p, Event.log LogLevel.info] else []) ++ removeLinks lnk rest

/-- `cleanup(signum, frame)`, lines 84–95: log, close every endpoint master
fd (ignoring close errors), remove the published symlinks, `sys.exit(0)`. -/
def cleanup (closeFails : Nat → Bool) (lnk : String → Bool) (vports : List VPort) : List Event :=
  Event.log LogLevel.info ::
    (closeAllVports closeFails vports ++ removeLinks lnk VPORTS ++ [Event.exitOk])

/-! ## Step 3a: device → endpoints broadcast (lines 151–161) -/

/-- Per-endpoint state update of the broadcast loop body (lines 154–161):
`EAGAIN`/`EIO` is skipped, any other write error marks the endpoint dead. -/
def bcastUpdate (r : WRes) (v : VPort) : VPort :=
  match r with
  | WRes.ok => v
  | WRes.err e =>
    if e = Errno.eagain ∨ e = Errno.eio then v else { v with alive := false }

/-- Events of one broadcast loop body: the attempted `os.write`, then a debug
log on skip (line 158) or a warning on marking dead (line 160). -/
def bcastEvents (r : WRes) (v : VPort) : List Event :=
  match r with
  | WRes.ok => [Event.writeVPort v.master_fd v.alive]
  | WRes.err e =>
    if e = Errno.eagain ∨ e = Errno.eio then
      [Event.writeVPort v.master_fd v.alive, Event.log LogLevel.debug]
    else
      [Event.writeVPort v.master_fd v.alive, Event.log LogLevel.warning]

/-- `for v in [v for v in vports if v['alive']]: try: os.write(...)` —
lines 153–161.  Writes are attempted exactly on the endpoints whose `alive`
flag is true at that point. -/
def broadcast (w : Nat → WRes) : List VPort → List VPort × List Event
  | [] => ([], [])
  | v :: rest =>
    let r := broadcast w rest
    if v.alive then
      (bcastUpdate (w v.master_fd) v :: r.1, bcastEvents (w v.master_fd) v ++ r.2)
    else
      (v :: r.1, r.2)

/-! ## Step 3b: endpoint → device dispatch (lines 163–197) -/

/-- Outcome handling of `os.read(fd, 4096)` on an active endpoint
(lines 168–184): empty read (EOF) and `EIO` transition to idle with an info
log; `EAGAIN`/`EINTR` are ignored; any other error marks the endpoint dead
with a warning.  The third component is the data to forward to the device
(lines 186–189), present exactly on a non-empty successful read. -/
def handleVportRead (r : RRes) (v : VPort) : VPort × List Event × Option (List Nat) :=
  match r with
  | RRes.ok [] => ({ v with idle := true }, [Event.log LogLevel.info], none)
  | RRes.ok (b :: bs) => (v, [], some (b :: bs))
  | RRes.err e =>
    if e = Errno.eagain ∨ e = Errno.eintr then (v, [], none)
    else if e = Errno.eio then ({ v with idle := true }, [Event.log LogLevel.info], none)
    else ({ v with alive := false }, [Event.log LogLevel.warning], none)

/-- First record with the given master fd, as `next((v for v in ... if
v['master_fd'] == fd), None)` at line 165. -/
def findFd : List VPort → Nat → Option VPort
  | [], _ => none
  | v :: rest, fd => if v.master_fd = fd then some v else findFd rest fd

/-- Replace the first record with the given master fd (the in-place mutation
of the dict found at line 165). -/
def replaceFd : List VPort → Nat → VPort → List VPort
  | [], _, _ => []
  | v :: rest, fd, v2 => if v.master_fd = fd then v2 :: rest else v :: replaceFd rest fd v2

/-- Events of a device reconnection (lines 143–148 and 191–196): warning log,
best-effort `ser.close()`, reopen via `open_serial`. -/
def serFailEvents (h : Nat) : List Event :=
  [Event.log LogLevel.warning, Event.serClose, Event.serOpen h]

/-- The `for fd in readable` loop (lines 135–197).  `serFd` and `aFds` are the
values of `ser_fd` and `active_vports` computed at the top of the iteration
(lines 118–123); reconnection `break`s out of the loop, leaving the remaining
readable fds unprocessed. -/
def dispatch (inp : IterInput) (serFd : Option Nat) (aFds : List Nat) :
    List Nat → MuxState → MuxState × List Event
  | [], st => (st, [])
  | fd :: rest, st =>
    if some fd = serFd then
      match inp.serRead with
      | RRes.err _ =>
        ({ st with ser := inp.reopen }, serFailEvents inp.reopen)
      | RRes.ok [] =>
        let r := dispatch inp serFd aFds rest st
        (r.1, Event.serReadEv [] :: r.2)
      | RRes.ok (b :: bs) =>
        let data := b :: bs
        let st1 := { st with
          bytes_from_device := st.bytes_from_device + data.length }
        let br := broadcast inp.bcastWrite st1.vports
        let r := dispatch inp serFd aFds rest { st1 with vports := br.1 }
        (r.1, (Event.serReadEv data :: Event.log LogLevel.debug :: br.2) ++ r.2)
    else
      if fd ∈ aFds then
        match findFd st.vports fd with
        | none => dispatch inp serFd aFds rest st
        | some v =>
          let h := handleVportRead (inp.vpRead fd) v
          let st1 := { st with vports := replaceFd st.vports fd h.1 }
          match h.2.2 with
          | none =>
            let r := dispatch inp serFd aFds rest st1
            (r.1, (Event.readVPort fd v.alive :: h.2.1) ++ r.2)
          | some data =>
            let st2 := { st1 with
              bytes_to_device := st1.bytes_to_device + data.length }
            if inp.serWriteOk fd then
              let r := dispatch inp serFd aFds rest st2
              (r.1, (Event.readVPort fd v.alive :: h.2.1 ++
                [Event.log LogLevel.debug, Event.serWrite data]) ++ r.2)
            else
              ({ st2 with ser := inp.reopen },
               Event.readVPort fd v.alive :: h.2.1 ++
                 Event.log LogLevel.debug :: serFailEvents inp.reopen)
      else
        dispatch inp serFd aFds rest st

/-! ## Step 4: idle probing (lines 199–216) -/

/-- Outcome handling of the probing `os.read(v['master_fd'], 1)`
(lines 202–216): a successful read or `EAGAIN` clears `idle` with an info log
("Client connected"), `EIO` leaves the record unchanged, any other error marks
it dead with a warning. -/
def probeOne (r : RRes) (v : VPort) : VPort × List Event :=
  match r with
  | RRes.ok _ => ({ v with idle := false }, [Event.log LogLevel.info])
  | RRes.err e =>
    if e = Errno.eagain then ({ v with idle := false }, [Event.log LogLevel.info])
    else if e = Errno.eio then (v, [])
    else ({ v with alive := false }, [Event.log LogLevel.warning])

/-- `for v in vports: if v['alive'] and v['idle']: ...` — lines 200–216. -/
def probeStep (p : Nat → RRes) : List VPort → List VPort × List Event
  | [] => ([], [])
  | v :: rest =>
    let r := probeStep p rest
    if v.alive && v.idle then
      let pr := probeOne (p v.master_fd) v
      (pr.1 :: r.1, (Event.probeRead v.master_fd v.alive v.idle :: pr.2) ++ r.2)
    else
      (v :: r.1, r.2)

/-! ## Step 5: recovery sweep (lines 218–222) -/

/-- `for i, v in enumerate(vports): if not v['alive']: vports[i] =
recreate_vport(v)` — lines 219–221.  Fresh fds and slave names come from the
oracle, keyed by the endpoint's published path. -/
def sweep (ffd : String → Nat) (fsl : String → String) (lnk : String → Bool) :
    List VPort → List VPort × List Event
  | [] => ([], [])
  | v :: rest =>
    let r := sweep ffd fsl lnk rest
    if v.alive then
      (v :: r.1, r.2)
    else
      let rc := recreate_vport (lnk v.path) (fsl v.path) (ffd v.path) v
      (rc.1 :: r.1, rc.2 ++ r.2)

/-! ## Step 6: periodic stats (lines 224–230) -/

/-- Lines 225–230: emit the stats log line and reset `last_stats` when at
least 60 seconds have elapsed.  `statsEv` stands for the `log.info` call at
line 229. -/
def statsStep (now : Nat) (st : MuxState) : MuxState × List Event :=
  if 60 ≤ now - st.last_stats then ({ st with last_stats := now }, [Event.statsEv])
  else (st, [])

/-! ## One iteration of the main loop (lines 116–230) -/

/-- `active_vports` at line 123: alive, non-idle endpoints. -/
def activeFds (vports : List VPort) : List Nat :=
  (vports.filter fun v => v.alive && !v.idle).map VPort.master_fd

/-- `watch_fds` at line 124: the serial fd (when `fileno()` succeeded) plus
the active endpoints' master fds.  Idle endpoints are never waited on. -/
def watch_fds (serFd : Option Nat) (vports : List VPort) : List Nat :=
  match serFd with
  | some s => s :: activeFds vports
  | none => activeFds vports

/-- Steps 4–6 of the iteration (idle probing, recovery sweep, stats), which
the source always executes after the `for fd in readable` loop finishes or is
left via `break`. -/
def tailSteps (inp : IterInput) (st : MuxState) : MuxState × List Event :=
  let p := probeStep inp.probeRes st.vports
  let st2 := { st with vports := p.1 }
  let sw := sweep inp.freshFd inp.freshSlave inp.linkExists st2.vports
  let st3 := { st2 with vports := sw.1 }
  let s := statsStep inp.now st3
  (s.1, p.2 ++ sw.2 ++ s.2)

/-- One iteration of `while True` in `main` (lines 116–230).  Returns the new
state, the trace of events, and whether the iteration re-raised a fatal
`select` error (line 132). -/
def loopBody (st : MuxState) (inp : IterInput) : MuxState × List Event × Bool :=
  let serFd : Option Nat := if inp.filenoFails then none else some st.ser
  match inp.sel with
  | SelectResult.eintr => (st, [], false)
  | SelectResult.fatal _ => (st, [], true)
  | SelectResult.ready fds =>
    let d := dispatch inp serFd (activeFds st.vports) fds st
    let t := tailSteps inp d.1
    (t.1, d.2 ++ t.2, false)

/-! ## Trace extractors -/

/-- fds of the `os.write` attempts recorded in a trace. -/
def writeAttempts : List Event → List Nat
  | [] => []
  | Event.writeVPort fd _ :: r => fd :: writeAttempts r
  | _ :: r => writeAttempts r

/-- fds of the probing reads recorded in a trace. -/
def probeReads : List Event → List Nat
  | [] => []
  | Event.probeRead fd _ _ :: r => fd :: probeReads r
  | _ :: r => probeReads r

/-- fds of the `os.close` calls recorded in a trace. -/
def closedFds : List Event → List Nat
  | [] => []
  | Event.closeFd fd :: r => fd :: closedFds r
  | _ :: r => closedFds r

/-- paths of the `os.unlink` calls recorded in a trace. -/
def unlinked : List Event → List String
  | [] => []
  | Event.unlink p :: r => p :: unlinked r
  | _ :: r => unlinked r

/-- Whether an event is a read of, write to, or probe of the endpoint handle
`fd`. -/
def touches (fd : Nat) : Event → Bool
  | Event.writeVPort f _ => f == fd
  | Event.readVPort f _ => f == fd
  | Event.probeRead f _ _ => f == fd
  | _ => false

/-- Number of `ser.close()` calls recorded in a trace. -/
def serCloseCount : List Event → Nat
  | [] => 0
  | Event.serClose :: r => serCloseCount r + 1
  | _ :: r => serCloseCount r

/-- Whether an event is one a probe may produce: the probing read itself or a
log line. -/
def probeTraceOnly : Event → Bool
  | Event.probeRead _ _ _ => true
  | Event.log _ => true
  | _ => false

/-- A "would block" condition in the source's sense: `errno.EAGAIN` on a
non-blocking handle (the condition the source deliberately ignores at
lines 157, 175 and treats as "no data but no error" at line 208). -/
def wouldBlock : Errno → Bool
  | Errno.eagain => true
  | _ => false

/-- Every record carrying the fd `fd0` is dead. -/
def DeadFd (fd0 : Nat) (vs : List VPort) : Prop :=
  ∀ u ∈ vs, u.master_fd = fd0 → u.alive = false

instance (fd0 : Nat) (vs : List VPort) : Decidable (DeadFd fd0 vs) := by
  unfold DeadFd; exact List.decidableBAll _ vs

/-! ## Concrete fixtures used to settle the claims on explicit inputs -/

/-- A state with one alive, active endpoint on master fd 5, serial handle 3. -/
def cst : MuxState :=
  { ser := 3,
    vports := [{ master_fd := 5, path := "/dev/ttyV0", slave_name := "/dev/pts/9",
                 alive := true, idle := false }],
    bytes_from_device := 0, bytes_to_device := 0, last_stats := 0 }

/-- A state with one alive, idle endpoint on master fd 5, serial handle 3. -/
def cstIdle : MuxState :=
  { ser := 3,
    vports := [{ master_fd := 5, path := "/dev/ttyV0", slave_name := "/dev/pts/9",
                 alive := true, idle := true }],
    bytes_from_device := 0, bytes_to_device := 0, last_stats := 0 }

/-- A state with a dead endpoint (fd 5) and an alive, active endpoint (fd 6). -/
def cstDead : MuxState :=
  { ser := 3,
    vports := [{ master_fd := 5, path := "/dev/ttyV0", slave_name := "/dev/pts/9",
                 alive := false, idle := true },
               { master_fd := 6, path := "/dev/ttyV1", slave_name := "/dev/pts/10",
                 alive := true, idle := false }],
    bytes_from_device := 0, bytes_to_device := 0, last_stats := 0 }

/-- Both the serial fd and endpoint fd 5 are readable; the serial data is
broadcast but the write to fd 5 fails with a fatal errno (marking it dead);
fd 5 is then dispatched in the same iteration. -/
def inC1 : IterInput :=
  { filenoFails := false,
    sel := SelectResult.ready [3, 5],
    serRead := RRes.ok [1],
    bcastWrite := fun _ => WRes.err (Errno.other 9),
    vpRead := fun _ => RRes.ok [2],
    serWriteOk := fun _ => true,
    probeRes := fun _ => RRes.err Errno.eio,
    reopen := 8,
    freshFd := fun _ => 9,
    freshSlave := fun _ => "/dev/pts/10",
    linkExists := fun _ => true,
    now := 0 }

/-- The serial fd is readable and its read fails; 60 seconds have elapsed
since the last stats emission. -/
def inC3 : IterInput :=
  { filenoFails := false,
    sel := SelectResult.ready [3],
    serRead := RRes.err (Errno.other 5),
    bcastWrite := fun _ => WRes.ok,
    vpRead := fun _ => RRes.ok [],
    serWriteOk := fun _ => true,
    probeRes := fun _ => RRes.err Errno.eio,
    reopen := 8,
    freshFd := fun _ => 9,
    freshSlave := fun _ => "/dev/pts/10",
    linkExists := fun _ => true,
    now := 100 }

/-- Endpoint fd 5 is readable and its read returns end-of-stream; the
subsequent idle probe of fd 5 reports would-block. -/
def inC5 : IterInput :=
  { filenoFails := false,
    sel := SelectResult.ready [5],
    serRead := RRes.ok [],
    bcastWrite := fun _ => WRes.ok,
    vpRead := fun _ => RRes.ok [],
    serWriteOk := fun _ => true,
    probeRes := fun _ => RRes.err Errno.eagain,
    reopen := 8,
    freshFd := fun _ => 9,
    freshSlave := fun _ => "/dev/pts/10",
    linkExists := fun _ => true,
    now := 0 }

/-- The readiness wait is interrupted by a signal (`EINTR`). -/
def inEintr : IterInput :=
  { filenoFails := false,
    sel := SelectResult.eintr,
    serRead := RRes.ok [],
    bcastWrite := fun _ => WRes.ok,
    vpRead := fun _ => RRes.ok [],
    serWriteOk := fun _ => true,
    probeRes := fun _ => RRes.err Errno.eio,
    reopen := 8,
    freshFd := fun _ => 9,
    freshSlave := fun _ => "/dev/pts/10",
    linkExists := fun _ => true,
    now := 0 }

/-- Endpoint fd 5 is readable with data, and the forwarding `ser.write`
fails, forcing a reconnect mid-dispatch. -/
def inC3w : IterInput :=
  { filenoFails := false,
    sel := SelectResult.ready [5],
    serRead := RRes.ok [],
    bcastWrite := fun _ => WRes.ok,
    vpRead := fun _ => RRes.ok [7],
    serWriteOk := fun _ => false,
    probeRes := fun _ => RRes.err Errno.eio,
    reopen := 8,
    freshFd := fun _ => 9,
    freshSlave := fun _ => "/dev/pts/10",
    linkExists := fun _ => true,
    now := 100 }

/-- A close oracle on which no close fails. -/
def noFail : Nat → Bool := fun _ => false

/-- A link oracle on which every path is a symlink. -/
def allLinks : String → Bool := fun _ => true

/-- An open-attempt oracle failing twice, then succeeding with handle 7. -/
def att8 : Nat → Option Nat := fun k => if k = 2 then some 7 else none

/-- An open-attempt oracle on which every attempt fails. -/
def attNone : Nat → Option Nat := fun _ => none

/-! ## Closed forms for the loop's steps -/

theorem broadcast_fst (w : Nat → WRes) (vs : List VPort) :
    (broadcast w vs).1 =
      vs.map fun v => if v.alive then bcastUpdate (w v.master_fd) v else v := by
  induction vs with
  | nil => rfl
  | cons v rest ih =>
    by_cases hv : v.alive <;> simp [broadcast, hv, ih]

theorem broadcast_snd (w : Nat → WRes) (vs : List VPort) :
    (broadcast w vs).2 =
      vs.flatMap fun v => if v.alive then bcastEvents (w v.master_fd) v else [] := by
  induction vs with
  | nil => rfl
  | cons v rest ih =>
    by_cases hv : v.alive <;> simp [broadcast, hv, ih]

theorem writeAttempts_append (a b : List Event) :
    writeAttempts (a ++ b) = writeAttempts a ++ writeAttempts b := by
  induction a with
  | nil => rfl
  | cons e r ih => cases e <;> simp [writeAttempts, ih]

theorem writeAttempts_bcastEvents (r : WRes) (v : VPort) :
    writeAttempts (bcastEvents r v) = [v.master_fd] := by
  cases r with
  | ok => rfl
  | err e =>
    by_cases h : e = Errno.eagain ∨ e = Errno.eio <;> simp [bcastEvents, h, writeAttempts]

theorem writeAttempts_broadcast (w : Nat → WRes) (vs : List VPort) :
    writeAttempts (broadcast w vs).2 =
      (vs.filter fun v => v.alive).map VPort.master_fd := by
  induction vs with
  | nil => rfl
  | cons v rest ih =>
    by_cases hv : v.alive <;>
      simp [broadcast, hv, writeAttempts_append, writeAttempts_bcastEvents, ih,
        List.filter_cons]

theorem probeStep_fst (p : Nat → RRes) (vs : List VPort) :
    (probeStep p vs).1 =
      vs.map fun v => if v.alive && v.idle then (probeOne (p v.master_fd) v).1 else v := by
  induction vs with
  | nil => rfl
  | cons v rest ih =>
    by_cases hv : (v.alive && v.idle) = true <;>
      simp only [Bool.and_eq_true] at hv
    · obtain ⟨h1, h2⟩ := hv
      simp [probeStep, h1, h2, ih]
    · simp [probeStep, hv, ih]

theorem probeStep_snd (p : Nat → RRes) (vs : List VPort) :
    (probeStep p vs).2 =
      vs.flatMap fun v =>
        if v.alive && v.idle then
          Event.probeRead v.master_fd v.alive v.idle :: (probeOne (p v.master_fd) v).2
        else [] := by
  induction vs with
  | nil => rfl
  | cons v rest ih =>
    by_cases hv : (v.alive && v.idle) = true <;>
      simp only [Bool.and_eq_true] at hv
    · obtain ⟨h1, h2⟩ := hv
      simp [probeStep, h1, h2, ih]
    · simp [probeStep, hv, ih]

theorem probeReads_append (a b : List Event) :
    probeReads (a ++ b) = probeReads a ++ probeReads b := by
  induction a with
  | nil => rfl
  | cons e r ih => cases e <;> simp [probeReads, ih]

theorem probeReads_probeOne (r : RRes) (v : VPort) :
    probeReads (probeOne r v).2 = [] := by
  cases r with
  | ok d => rfl
  | err e =>
    by_cases h1 : e = Errno.eagain
    · simp [probeOne, h1, probeReads]
    · by_cases h2 : e = Errno.eio <;> simp [probeOne, h1, h2, probeReads]

theorem probeReads_probeStep (p : Nat → RRes) (vs : List VPort) :
    probeReads (probeStep p vs).2 =
      (vs.filter fun v => v.alive && v.idle).map VPort.master_fd := by
  induction vs with
  | nil => rfl
  | cons v rest ih =>
    by_cases hv : (v.alive && v.idle) = true <;>
      simp only [Bool.and_eq_true] at hv
    · obtain ⟨h1, h2⟩ := hv
      simp [probeStep, h1, h2, probeReads_append, probeReads, probeReads_probeOne, ih,
        List.filter_cons]
    · simp [probeStep, hv, probeReads_append, probeReads, probeReads_probeOne, ih,
        List.filter_cons]

theorem sweep_fst (f : String → Nat) (s : String → String) (l : String → Bool)
    (vs : List VPort) :
    (sweep f s l vs).1 =
      vs.map fun v => if v.alive then v else freshVPort v.path (s v.path) (f v.path) := by
  induction vs with
  | nil => rfl
  | cons v rest ih =>
    by_cases hv : v.alive <;> simp [sweep, hv, ih, recreate_vport, create_vport]

theorem sweep_snd (f : String → Nat) (s : String → String) (l : String → Bool)
    (vs : List VPort) :
    (sweep f s l vs).2 =
      vs.flatMap fun v =>
        if v.alive then []
        else
          Event.closeFd v.master_fd :: Event.log LogLevel.info ::
            ((if l v.path then [Event.unlink v.path] else []) ++
              [Event.createVPort v.path (f v.path), Event.log LogLevel.info]) := by
  induction vs with
  | nil => rfl
  | cons v rest ih =>
    by_cases hv : v.alive <;> simp [sweep, hv, ih, recreate_vport, create_vport]

theorem sweep_all_alive (f : String → Nat) (s : String → String) (l : String → Bool)
    (vs : List VPort) :
    ((sweep f s l vs).1.all fun v => v.alive) = true := by
  rw [sweep_fst, List.all_eq_true]
  intro v hv
  rcases List.mem_map.mp hv with ⟨u, _, rfl⟩
  by_cases hu : u.alive <;> simp [hu, freshVPort]

/-! ## Preservation lemmas: dead endpoints are not operated on -/

theorem bcastUpdate_fd (r : WRes) (v : VPort) :
    (bcastUpdate r v).master_fd = v.master_fd := by
  cases r with
  | ok => rfl
  | err e => by_cases h : e = Errno.eagain ∨ e = Errno.eio <;> simp [bcastUpdate, h]

theorem handleVportRead_fd (r : RRes) (v : VPort) :
    (handleVportRead r v).1.master_fd = v.master_fd := by
  cases r with
  | ok d => cases d <;> rfl
  | err e =>
    by_cases h1 : e = Errno.eagain ∨ e = Errno.eintr
    · simp [handleVportRead, h1]
    · by_cases h2 : e = Errno.eio <;> simp [handleVportRead, h1, h2]

theorem probeOne_fd (r : RRes) (v : VPort) :
    (probeOne r v).1.master_fd = v.master_fd := by
  cases r with
  | ok d => rfl
  | err e =>
    by_cases h1 : e = Errno.eagain
    · simp [probeOne, h1]
    · by_cases h2 : e = Errno.eio <;> simp [probeOne, h1, h2]

theorem handleVportRead_events (r : RRes) (v : VPort) :
    ∀ e ∈ (handleVportRead r v).2.1, ∃ lvl, e = Event.log lvl := by
  cases r with
  | ok d => cases d <;> simp [handleVportRead]
  | err e =>
    by_cases h1 : e = Errno.eagain ∨ e = Errno.eintr
    · simp [handleVportRead, h1]
    · by_cases h2 : e = Errno.eio <;> simp [handleVportRead, h1, h2]

theorem probeOne_events (r : RRes) (v : VPort) :
    ∀ e ∈ (probeOne r v).2, ∃ lvl, e = Event.log lvl := by
  cases r with
  | ok d => simp [probeOne]
  | err e =>
    by_cases h1 : e = Errno.eagain
    · simp [probeOne, h1]
    · by_cases h2 : e = Errno.eio <;> simp [probeOne, h1, h2]

theorem touches_bcastEvents (r : WRes) (v : VPort) (fd0 : Nat) :
    ∀ e ∈ bcastEvents r v, touches fd0 e = true → v.master_fd = fd0 := by
  cases r with
  | ok =>
    intro e he ht
    simp [bcastEvents] at he
    subst he
    simpa [touches] using ht
  | err e =>
    by_cases h : e = Errno.eagain ∨ e = Errno.eio <;>
    · intro ev hev ht
      simp [bcastEvents, h] at hev
      rcases hev with rfl | rfl
      · simpa [touches] using ht
      · simp [touches] at ht

theorem DeadFd_broadcast (w : Nat → WRes) (vs : List VPort) (fd0 : Nat)
    (h : DeadFd fd0 vs) : DeadFd fd0 (broadcast w vs).1 := by
  rw [broadcast_fst]
  intro u hu hfd
  rcases List.mem_map.mp hu with ⟨x, hx, rfl⟩
  by_cases hb : x.alive = true
  · rw [if_pos hb] at hfd ⊢
    rw [bcastUpdate_fd] at hfd
    exact absurd (h x hx hfd) (by simp [hb])
  · rw [if_neg hb] at hfd ⊢
    exact h x hx hfd

theorem broadcast_not_touch (w : Nat → WRes) (vs : List VPort) (fd0 : Nat)
    (h : DeadFd fd0 vs) :
    ((broadcast w vs).2.all fun e => !(touches fd0 e)) = true := by
  rw [broadcast_snd, List.all_eq_true]
  intro e he
  rcases List.mem_flatMap.mp he with ⟨x, hx, he2⟩
  by_cases hb : x.alive = true
  · rw [if_pos hb] at he2
    by_cases ht : touches fd0 e = true
    · exact absurd (h x hx (touches_bcastEvents _ _ _ e he2 ht)) (by simp [hb])
    · simp at ht
      simp [ht]
  · rw [if_neg hb] at he2
    simp at he2

theorem DeadFd_probeStep (p : Nat → RRes) (vs : List VPort) (fd0 : Nat)
    (h : DeadFd fd0 vs) : DeadFd fd0 (probeStep p vs).1 := by
  rw [probeStep_fst]
  intro u hu hfd
  rcases List.mem_map.mp hu with ⟨x, hx, rfl⟩
  by_cases hb : (x.alive && x.idle) = true
  · rw [if_pos hb] at hfd ⊢
    rw [probeOne_fd] at hfd
    exact absurd (h x hx hfd) (by simp [Bool.and_eq_true] at hb; simp [hb.1])
  · rw [if_neg hb] at hfd ⊢
    exact h x hx hfd

theorem probeStep_not_touch (p : Nat → RRes) (vs : List VPort) (fd0 : Nat)
    (h : DeadFd fd0 vs) :
    ((probeStep p vs).2.all fun e => !(touches fd0 e)) = true := by
  rw [probeStep_snd, List.all_eq_true]
  intro e he
  rcases List.mem_flatMap.mp he with ⟨x, hx, he2⟩
  by_cases hb : (x.alive && x.idle) = true
  · rw [if_pos hb] at he2
    rcases List.mem_cons.mp he2 with rfl | he3
    · have hxa : x.alive = true := by simp [Bool.and_eq_true] at hb; exact hb.1
      by_cases hfd : x.master_fd = fd0
      · exact absurd (h x hx hfd) (by simp [hxa])
      · simp [touches, hfd]
    · rcases probeOne_events _ _ e he3 with ⟨lvl, rfl⟩
      simp [touches]
  · rw [if_neg hb] at he2
    simp at he2

theorem sweep_not_touch (f : String → Nat) (s : String → String) (l : String → Bool)
    (vs : List VPort) (fd0 : Nat) :
    ((sweep f s l vs).2.all fun e => !(touches fd0 e)) = true := by
  rw [List.all_eq_true]
  intro e he
  rw [sweep_snd] at he
  rcases List.mem_flatMap.mp he with ⟨x, hx, he2⟩
  by_cases hb : x.alive = true
  · rw [if_pos hb] at he2
    simp at he2
  · rw [if_neg hb] at he2
    simp only [List.mem_cons, List.mem_append, List.mem_singleton] at he2
    have ht : touches fd0 e = false := by
      rcases he2 with rfl | rfl | h3 | rfl | rfl | h0
      · rfl
      · rfl
      · by_cases hl : l x.path = true
        · rw [if_pos hl] at h3
          simp at h3
          subst h3
          rfl
        · rw [if_neg hl] at h3
          simp at h3
      · rfl
      · rfl
      · simp at h0
    simp [ht]

theorem statsStep_not_touch (now : Nat) (st : MuxState) (fd0 : Nat) :
    ((statsStep now st).2.all fun e => !(touches fd0 e)) = true := by
  unfold statsStep
  by_cases h : 60 ≤ now - st.last_stats <;> simp [h, touches]

theorem mem_replaceFd {vs : List VPort} {fd : Nat} {v2 u : VPort}
    (h : u ∈ replaceFd vs fd v2) : u ∈ vs ∨ u = v2 := by
  induction vs with
  | nil => simp [replaceFd] at h
  | cons x rest ih =>
    by_cases hx : x.master_fd = fd
    · rw [replaceFd, if_pos hx] at h
      rcases List.mem_cons.mp h with rfl | h2
      · exact Or.inr rfl
      · exact Or.inl (List.mem_cons_of_mem _ h2)
    · rw [replaceFd, if_neg hx] at h
      rcases List.mem_cons.mp h with rfl | h2
      · exact Or.inl (List.mem_cons_self _ _)
      · rcases ih h2 with h3 | h3
        · exact Or.inl (List.mem_cons_of_mem _ h3)
        · exact Or.inr h3

theorem DeadFd_replaceFd {vs : List VPort} {fd fd0 : Nat} {v2 : VPort}
    (h : DeadFd fd0 vs) (hv2 : v2.master_fd ≠ fd0) :
    DeadFd fd0 (replaceFd vs fd v2) := by
  intro u hu hfd
  rcases mem_replaceFd hu with h1 | rfl
  · exact h u h1 hfd
  · exact absurd hfd hv2

theorem findFd_eq_some {vs : List VPort} {fd : Nat} {v : VPort}
    (h : findFd vs fd = some v) : v.master_fd = fd ∧ v ∈ vs := by
  induction vs with
  | nil => simp [findFd] at h
  | cons x rest ih =>
    by_cases hx : x.master_fd = fd
    · rw [findFd, if_pos hx] at h
      cases h
      exact ⟨hx, List.mem_cons_self _ _⟩
    · rw [findFd, if_neg hx] at h
      rcases ih h with ⟨h1, h2⟩
      exact ⟨h1, List.mem_cons_of_mem _ h2⟩

theorem replaceFd_self {vs : List VPort} {fd : Nat} {v : VPort}
    (h : findFd vs fd = some v) : replaceFd vs fd v = vs := by
  induction vs with
  | nil => rfl
  | cons x rest ih =>
    by_cases hx : x.master_fd = fd
    · rw [findFd, if_pos hx] at h
      cases h
      rw [replaceFd, if_pos hx]
    · rw [findFd, if_neg hx] at h
      rw [replaceFd, if_neg hx, ih h]

theorem handleVportRead_not_touch (r : RRes) (v : VPort) (fd0 : Nat) :
    ((handleVportRead r v).2.1.all fun e => !(touches fd0 e)) = true := by
  rw [List.all_eq_true]
  intro e he
  rcases handleVportRead_events r v e he with ⟨lvl, rfl⟩
  rfl

theorem dispatch_not_touch (inp : IterInput) (serFd : Option Nat) (aFds : List Nat)
    (fds : List Nat) (st : MuxState) (fd0 : Nat)
    (ha : fd0 ∉ aFds) (h : DeadFd fd0 st.vports) :
    ((dispatch inp serFd aFds fds st).2.all fun e => !(touches fd0 e)) = true
      ∧ DeadFd fd0 (dispatch inp serFd aFds fds st).1.vports := by
  induction fds generalizing st with
  | nil => exact ⟨rfl, h⟩
  | cons fd rest ih =>
    by_cases hs : some fd = serFd
    · cases hr : inp.serRead with
      | err e =>
        have hd : dispatch inp serFd aFds (fd :: rest) st =
            ({ st with ser := inp.reopen }, serFailEvents inp.reopen) := by
          simp [dispatch, hs, hr]
        rw [hd]
        exact ⟨by simp [serFailEvents, touches], h⟩
      | ok data =>
        cases data with
        | nil =>
          have hd : dispatch inp serFd aFds (fd :: rest) st =
              ((dispatch inp serFd aFds rest st).1,
                Event.serReadEv [] :: (dispatch inp serFd aFds rest st).2) := by
            simp [dispatch, hs, hr]
          obtain ⟨iht, ihd⟩ := ih st h
          rw [hd]
          refine ⟨?_, ihd⟩
          rw [List.all_cons, iht]
          rfl
        | cons b bs =>
          have hdead2 : DeadFd fd0 (broadcast inp.bcastWrite st.vports).1 :=
            DeadFd_broadcast _ _ _ h
          have hd : dispatch inp serFd aFds (fd :: rest) st =
              ((dispatch inp serFd aFds rest
                  { st with
                    bytes_from_device := st.bytes_from_device + (b :: bs).length,
                    vports := (broadcast inp.bcastWrite st.vports).1 }).1,
                (Event.serReadEv (b :: bs) :: Event.log LogLevel.debug ::
                    (broadcast inp.bcastWrite st.vports).2) ++
                  (dispatch inp serFd aFds rest
                    { st with
                      bytes_from_device := st.bytes_from_device + (b :: bs).length,
                      vports := (broadcast inp.bcastWrite st.vports).1 }).2) := by
            simp [dispatch, hs, hr]
          obtain ⟨iht, ihd⟩ := ih
            { st with
              bytes_from_device := st.bytes_from_device + (b :: bs).length,
              vports := (broadcast inp.bcastWrite st.vports).1 } hdead2
          rw [hd]
          refine ⟨?_, ihd⟩
          rw [List.cons_append, List.cons_append, List.all_cons, List.all_cons,
            List.all_append, iht, broadcast_not_touch inp.bcastWrite st.vports fd0 h]
          rfl
    · by_cases hm : fd ∈ aFds
      · have hfdne : fd ≠ fd0 := fun hh => ha (hh ▸ hm)
        have hbe : (fd == fd0) = false := by simp [hfdne]
        cases hf : findFd st.vports fd with
        | none =>
          have hd : dispatch inp serFd aFds (fd :: rest) st =
              dispatch inp serFd aFds rest st := by
            simp [dispatch, hs, hm, hf]
          rw [hd]
          exact ih st h
        | some v =>
          have hvfd : v.master_fd = fd := (findFd_eq_some hf).1
          have hdead2 : DeadFd fd0
              (replaceFd st.vports fd (handleVportRead (inp.vpRead fd) v).1) :=
            DeadFd_replaceFd h (by rw [handleVportRead_fd, hvfd]; exact hfdne)
          cases hfw : (handleVportRead (inp.vpRead fd) v).2.2 with
          | none =>
            have hd : dispatch inp serFd aFds (fd :: rest) st =
                ((dispatch inp serFd aFds rest
                    { st with vports :=
                        replaceFd st.vports fd (handleVportRead (inp.vpRead fd) v).1 }).1,
                  (Event.readVPort fd v.alive :: (handleVportRead (inp.vpRead fd) v).2.1) ++
                    (dispatch inp serFd aFds rest
                      { st with vports :=
                          replaceFd st.vports fd (handleVportRead (inp.vpRead fd) v).1 }).2) := by
              simp [dispatch, hs, hm, hf, hfw]
            obtain ⟨iht, ihd⟩ := ih
              { st with vports :=
                  replaceFd st.vports fd (handleVportRead (inp.vpRead fd) v).1 } hdead2
            rw [hd]
            refine ⟨?_, ihd⟩
            rw [List.cons_append, List.all_cons, List.all_append, iht,
              handleVportRead_not_touch (inp.vpRead fd) v fd0]
            simp [touches, hbe]
          | some data =>
            by_cases hw : inp.serWriteOk fd = true
            · have hd : dispatch inp serFd aFds (fd :: rest) st =
                  ((dispatch inp serFd aFds rest
                      { st with
                        vports :=
                          replaceFd st.vports fd (handleVportRead (inp.vpRead fd) v).1,
                        bytes_to_device := st.bytes_to_device + data.length }).1,
                    (Event.readVPort fd v.alive :: (handleVportRead (inp.vpRead fd) v).2.1 ++
                        [Event.log LogLevel.debug, Event.serWrite data]) ++
                      (dispatch inp serFd aFds rest
                        { st with
                          vports :=
                            replaceFd st.vports fd (handleVportRead (inp.vpRead fd) v).1,
                          bytes_to_device := st.bytes_to_device + data.length }).2) := by
                simp [dispatch, hs, hm, hf, hfw, hw]
              obtain ⟨iht, ihd⟩ := ih
                { st with
                  vports := replaceFd st.vports fd (handleVportRead (inp.vpRead fd) v).1,
                  bytes_to_device := st.bytes_to_device + data.length } hdead2
              rw [hd]
              refine ⟨?_, ihd⟩
              simp only [List.all_cons, List.all_append, iht,
                handleVportRead_not_touch (inp.vpRead fd) v fd0, Bool.and_true,
                Bool.true_and]
              simp [touches, hbe]
            · have hd : dispatch inp serFd aFds (fd :: rest) st =
                  ({ st with
                      vports :=
                        replaceFd st.vports fd (handleVportRead (inp.vpRead fd) v).1,
                      bytes_to_device := st.bytes_to_device + data.length,
                      ser := inp.reopen },
                    Event.readVPort fd v.alive :: (handleVportRead (inp.vpRead fd) v).2.1 ++
                      Event.log LogLevel.debug :: serFailEvents inp.reopen) := by
                simp [dispatch, hs, hm, hf, hfw, hw]
              rw [hd]
              refine ⟨?_, hdead2⟩
              simp only [List.all_cons, List.all_append,
                handleVportRead_not_touch (inp.vpRead fd) v fd0, Bool.and_true,
                Bool.true_and]
              simp [touches, hbe, serFailEvents]
      · have hd : dispatch inp serFd aFds (fd :: rest) st =
            dispatch inp serFd aFds rest st := by
          simp [dispatch, hs, hm]
        rw [hd]
        exact ih st h

theorem loopBody_not_touch (st : MuxState) (inp : IterInput) (fd0 : Nat)
    (ha : fd0 ∉ activeFds st.vports) (h : DeadFd fd0 st.vports) :
    (((loopBody st inp).2.1).all fun e => !(touches fd0 e)) = true := by
  unfold loopBody
  cases hsel : inp.sel with
  | eintr => rfl
  | fatal n => rfl
  | ready fds =>
    obtain ⟨iht, ihd⟩ := dispatch_not_touch inp
      (if inp.filenoFails then none else some st.ser) (activeFds st.vports) fds st fd0 ha h
    simp only [tailSteps, List.all_append, iht,
      probeStep_not_touch inp.probeRes _ fd0 ihd,
      sweep_not_touch inp.freshFd inp.freshSlave inp.linkExists _ fd0,
      statsStep_not_touch inp.now _ fd0, Bool.and_true, Bool.true_and]

/-! ## Claim C1 -/

/-- **C1, counterexample.**  The claim says a dead endpoint is never read
until rebuilt, "in particular, an endpoint marked dead during the broadcast
phase of an iteration is not read later in the dispatch phase of that same
iteration".  On the concrete iteration `loopBody cst inC1`, endpoint fd 5 is
alive and active at the top, the broadcast write to it fails fatally (the
`writeVPort 5 true` event followed by marking it dead), and the dispatch phase
of the same iteration then performs `os.read` on it while its alive flag is
false — the trace contains `readVPort 5 false`. -/
theorem C1_counterexample :
    Event.readVPort 5 false ∈ (loopBody cst inC1).2.1 ∧
      Event.writeVPort 5 true ∈ (loopBody cst inC1).2.1 := by
  decide

/-- **C1, amended.**  An endpoint whose alive flag is false at the start of a
loop iteration (with endpoint fds pairwise distinct) is neither read from,
written to, nor probed at any point of that iteration: the recovery sweep only
closes its old handle and rebuilds it.  (The original claim fails only for an
endpoint marked dead *during* the broadcast phase of the same iteration, which
the dispatch phase may still read — see the counterexample.) -/
theorem C1_theorem (st : MuxState) (inp : IterInput) (v : VPort)
    (hv : v ∈ st.vports) (hdead : v.alive = false)
    (hnd : (st.vports.map VPort.master_fd).Nodup) :
    (((loopBody st inp).2.1).all fun e => !(touches v.master_fd e)) = true := by
  have h : DeadFd v.master_fd st.vports := by
    intro u hu hfd
    have := List.inj_on_of_nodup_map hnd hu hv hfd
    rw [this]
    exact hdead
  have ha : v.master_fd ∉ activeFds st.vports := by
    intro hmem
    rcases List.mem_map.mp hmem with ⟨u, hu, hufd⟩
    rcases List.mem_filter.mp hu with ⟨hu2, hu3⟩
    have := h u hu2 hufd
    simp [Bool.and_eq_true] at hu3
    exact absurd this (by simp [hu3.1])
  exact loopBody_not_touch st inp v.master_fd ha h

/-- **C1, witness** for the amended theorem at a concrete input: in `cstDead`,
the endpoint on fd 5 is dead at the start of the iteration, and the iteration
`inC1` (which reads the device, broadcasts, dispatches fd 5 if watched, probes
and sweeps) performs no read, write or probe on fd 5. -/
theorem C1_witness :
    ({ master_fd := 5, path := "/dev/ttyV0", slave_name := "/dev/pts/9",
       alive := false, idle := true } : VPort) ∈ cstDead.vports ∧
      (((loopBody cstDead inC1).2.1).all fun e => !(touches 5 e)) = true :=
  ⟨by decide,
   C1_theorem cstDead inC1
     { master_fd := 5, path := "/dev/ttyV0", slave_name := "/dev/pts/9",
       alive := false, idle := true }
     (by decide) (by decide) (by decide)⟩

/-! ## Claim C2 -/

/-- **C2.**  For every successfully read chunk, the broadcast attempts an
`os.write` on exactly the endpoints whose alive flag is true — regardless of
their idle flag, and regardless of failures on earlier endpoints (first
conjunct: the attempted fds are exactly the alive fds, in order).  Per
endpoint, a would-block or device-busy failure (`EAGAIN`/`EIO`) leaves the
record unchanged and is logged (debug), any other failure marks only that
endpoint dead with a warning, and a success changes nothing (remaining
conjuncts). -/
theorem C2_theorem (w : Nat → WRes) (vs : List VPort) :
    writeAttempts (broadcast w vs).2 = (vs.filter fun v => v.alive).map VPort.master_fd
  ∧ (broadcast w vs).1 =
      vs.map (fun v => if v.alive then bcastUpdate (w v.master_fd) v else v)
  ∧ (∀ v : VPort,
      bcastUpdate WRes.ok v = v
      ∧ bcastUpdate (WRes.err Errno.eagain) v = v
      ∧ bcastUpdate (WRes.err Errno.eio) v = v
      ∧ bcastUpdate (WRes.err Errno.eintr) v = { v with alive := false }
      ∧ (∀ n, bcastUpdate (WRes.err (Errno.other n)) v = { v with alive := false })
      ∧ Event.log LogLevel.debug ∈ bcastEvents (WRes.err Errno.eagain) v
      ∧ Event.log LogLevel.debug ∈ bcastEvents (WRes.err Errno.eio) v
      ∧ Event.log LogLevel.warning ∈ bcastEvents (WRes.err Errno.eintr) v) := by
  refine ⟨writeAttempts_broadcast w vs, broadcast_fst w vs, fun v => ?_⟩
  refine ⟨rfl, by simp [bcastUpdate], by simp [bcastUpdate], by simp [bcastUpdate],
    fun n => by simp [bcastUpdate], by simp [bcastEvents], by simp [bcastEvents],
    by simp [bcastEvents]⟩

/-! ## Claim C4 -/

/-- **C4.**  Outcome handling of a read on an active endpoint: end-of-stream
(empty read) and `EIO` set the idle flag with the alive flag untouched
(hence left true for an active endpoint); `EAGAIN` and `EINTR` change
nothing; any other failure marks the endpoint dead; and data is forwarded to
the real device exactly for a successful non-empty read (last conjunct). -/
theorem C4_theorem (v : VPort) :
    handleVportRead (RRes.ok []) v =
      ({ v with idle := true }, [Event.log LogLevel.info], none)
  ∧ (∀ b bs, handleVportRead (RRes.ok (b :: bs)) v = (v, [], some (b :: bs)))
  ∧ handleVportRead (RRes.err Errno.eagain) v = (v, [], none)
  ∧ handleVportRead (RRes.err Errno.eintr) v = (v, [], none)
  ∧ handleVportRead (RRes.err Errno.eio) v =
      ({ v with idle := true }, [Event.log LogLevel.info], none)
  ∧ (∀ n, handleVportRead (RRes.err (Errno.other n)) v =
      ({ v with alive := false }, [Event.log LogLevel.warning], none))
  ∧ (∀ r, (handleVportRead r v).1.alive = v.alive
        ∨ (handleVportRead r v).1.alive = false)
  ∧ (∀ r d, (handleVportRead r v).2.2 = some d ↔ (r = RRes.ok d ∧ d ≠ [])) := by
  refine ⟨rfl, fun b bs => rfl, by simp [handleVportRead], by simp [handleVportRead],
    by simp [handleVportRead], fun n => by simp [handleVportRead], ?_, ?_⟩
  · intro r
    cases r with
    | ok d => cases d <;> simp [handleVportRead]
    | err e =>
      by_cases h1 : e = Errno.eagain ∨ e = Errno.eintr
      · simp [handleVportRead, h1]
      · by_cases h2 : e = Errno.eio <;> simp [handleVportRead, h1, h2]
  · intro r d
    cases r with
    | ok dd =>
      cases dd with
      | nil => simp [handleVportRead]
      | cons b bs =>
        simp only [handleVportRead, Option.some_inj]
        constructor
        · rintro rfl
          exact ⟨rfl, by simp⟩
        · rintro ⟨h1, h2⟩
          cases h1
          rfl
    | err e =>
      by_cases h1 : e = Errno.eagain ∨ e = Errno.eintr
      · simp [handleVportRead, h1]
      · by_cases h2 : e = Errno.eio <;> simp [handleVportRead, h1, h2]

/-! ## Claim C3 -/

/-- **C3, counterexample.**  The claim says that after a device-level failure
"the current loop iteration aborts and restarts from the top without executing
the remaining steps of that iteration (no idle probing, no recovery sweep, no
stats emission)".  On `loopBody cstIdle inC3` the serial read fails and the
handle is reconnected (`serOpen 8`), yet the same iteration still probes the
idle endpoint (`probeRead 5`) and still emits the stats line (`statsEv`): the
`break` at line 149 only leaves the `for fd in readable` loop, not the
iteration. -/
theorem C3_counterexample :
    Event.serOpen 8 ∈ (loopBody cstIdle inC3).2.1 ∧
      Event.probeRead 5 true true ∈ (loopBody cstIdle inC3).2.1 ∧
      Event.statsEv ∈ (loopBody cstIdle inC3).2.1 := by
  decide

/-- **C3, amended.**  On a device-level read failure (first conjunct) or
write failure (second conjunct), the scheduler logs a warning, closes the
stale handle best-effort and reopens it (`serFailEvents`), and the remaining
readable fds of that iteration are skipped (the trace continues directly with
`tailSteps`); the idle probe, recovery sweep and stats steps of the same
iteration still execute. -/
theorem C3_theorem (st : MuxState) (inp : IterInput) :
    (∀ rest e, inp.filenoFails = false →
      inp.sel = SelectResult.ready (st.ser :: rest) →
      inp.serRead = RRes.err e →
      loopBody st inp =
        ((tailSteps inp { st with ser := inp.reopen }).1,
          serFailEvents inp.reopen ++ (tailSteps inp { st with ser := inp.reopen }).2,
          false))
  ∧ (∀ fd rest v b bs,
      inp.filenoFails = false →
      inp.sel = SelectResult.ready (fd :: rest) →
      fd ≠ st.ser → fd ∈ activeFds st.vports →
      findFd st.vports fd = some v →
      inp.vpRead fd = RRes.ok (b :: bs) →
      inp.serWriteOk fd = false →
      loopBody st inp =
        ((tailSteps inp
            { st with bytes_to_device := st.bytes_to_device + (b :: bs).length,
                      ser := inp.reopen }).1,
          (Event.readVPort fd v.alive :: Event.log LogLevel.debug ::
              serFailEvents inp.reopen) ++
            (tailSteps inp
              { st with bytes_to_device := st.bytes_to_device + (b :: bs).length,
                        ser := inp.reopen }).2,
          false)) := by
  constructor
  · intro rest e hfn hsel hr
    simp [loopBody, hsel, hfn, dispatch, hr]
  · intro fd rest v b bs hfn hsel hne hm hf hvp hw
    simp [loopBody, hsel, hfn, dispatch, hne, hm, hf, hvp, hw, handleVportRead,
      replaceFd_self hf]

/-- **C3, witness** for the amended theorem, applying both conjuncts at
concrete inputs: a failing serial read on `cstIdle`/`inC3` and a failing
serial write (after reading `[7]` from endpoint fd 5) on `cst`/`inC3w`. -/
theorem C3_witness :
    loopBody cstIdle inC3 =
      ((tailSteps inC3 { cstIdle with ser := inC3.reopen }).1,
        serFailEvents inC3.reopen ++
          (tailSteps inC3 { cstIdle with ser := inC3.reopen }).2,
        false)
  ∧ loopBody cst inC3w =
      ((tailSteps inC3w
          { cst with bytes_to_device := cst.bytes_to_device + [7].length,
                     ser := inC3w.reopen }).1,
        (Event.readVPort 5 true :: Event.log LogLevel.debug ::
            serFailEvents inC3w.reopen) ++
          (tailSteps inC3w
            { cst with bytes_to_device := cst.bytes_to_device + [7].length,
                       ser := inC3w.reopen }).2,
        false) :=
  ⟨(C3_theorem cstIdle inC3).1 [] (Errno.other 5) rfl rfl rfl,
   (C3_theorem cst inC3w).2 5 []
     { master_fd := 5, path := "/dev/ttyV0", slave_name := "/dev/pts/9",
       alive := true, idle := false }
     7 [] rfl rfl (by decide) (by decide) (by decide) rfl rfl⟩

/-! ## Claim C5 -/

/-- **C5, counterexample.**  The claim says the probe step applies exactly to
the alive-and-idle endpoints "not already handled in the dispatch step of
that iteration".  On `loopBody cst inC5`, endpoint fd 5 is handled in the
dispatch step (`readVPort 5 true`, end-of-stream, transitioning it to idle),
and the probe step of the same iteration then probes it anyway
(`probeRead 5 true true`): the probe loop at line 200 has no exclusion for
endpoints already handled. -/
theorem C5_counterexample :
    Event.readVPort 5 true ∈ (loopBody cst inC5).2.1 ∧
      Event.probeRead 5 true true ∈ (loopBody cst inC5).2.1 := by
  decide

/-- **C5, amended.**  The probe step is applied exactly to the endpoints that
are alive and idle at the time of the probe (first conjunct: the probed fds
are exactly the alive-and-idle fds — including endpoints that were handled in
dispatch and transitioned to idle there); a single-byte read returning data or
failing with `EAGAIN` sets idle to false; `EIO` leaves the record unchanged;
any other failure (including `EINTR`) marks the endpoint dead. -/
theorem C5_theorem (p : Nat → RRes) (vs : List VPort) :
    probeReads (probeStep p vs).2 =
      (vs.filter fun v => v.alive && v.idle).map VPort.master_fd
  ∧ (probeStep p vs).1 =
      vs.map (fun v => if v.alive && v.idle then (probeOne (p v.master_fd) v).1 else v)
  ∧ (∀ v d, probeOne (RRes.ok d) v = ({ v with idle := false }, [Event.log LogLevel.info]))
  ∧ (∀ v, probeOne (RRes.err Errno.eagain) v =
      ({ v with idle := false }, [Event.log LogLevel.info]))
  ∧ (∀ v, probeOne (RRes.err Errno.eio) v = (v, []))
  ∧ (∀ v, probeOne (RRes.err Errno.eintr) v =
      ({ v with alive := false }, [Event.log LogLevel.warning]))
  ∧ (∀ v n, probeOne (RRes.err (Errno.other n)) v =
      ({ v with alive := false }, [Event.log LogLevel.warning])) :=
  ⟨probeReads_probeStep p vs, probeStep_fst p vs, fun v d => rfl,
   fun v => by simp [probeOne], fun v => by simp [probeOne],
   fun v => by simp [probeOne], fun v n => by simp [probeOne]⟩

/-! ## Claim C6 -/

theorem statsStep_vports (now : Nat) (st : MuxState) :
    (statsStep now st).1.vports = st.vports := by
  unfold statsStep
  by_cases h : 60 ≤ now - st.last_stats <;> simp [h]

theorem tailSteps_all_alive (inp : IterInput) (st : MuxState) :
    ((tailSteps inp st).1.vports.all fun v => v.alive) = true := by
  simp only [tailSteps]
  rw [statsStep_vports]
  exact sweep_all_alive _ _ _ _

theorem loopBody_all_alive (st : MuxState) (inp : IterInput)
    (h : (st.vports.all fun v => v.alive) = true) :
    ((loopBody st inp).1.vports.all fun v => v.alive) = true := by
  unfold loopBody
  cases hsel : inp.sel with
  | eintr => exact h
  | fatal n => exact h
  | ready fds => exact tailSteps_all_alive inp _

/-- **C6.**  The recovery sweep replaces each record that is dead when the
sweep runs by a freshly created endpoint at the same published path with
alive and idle true (`freshVPort`), leaving alive records untouched (first
conjunct); for each dead record the old handle is closed before the new
endpoint is created (second conjunct: per-endpoint events start with
`closeFd`); after the sweep every record is alive (third conjunct); and
consequently an iteration started with all endpoints alive ends with all
endpoints alive, so no endpoint's alive flag remains false across more than
one full loop iteration (fourth conjunct). -/
theorem C6_theorem (f : String → Nat) (sl : String → String) (l : String → Bool)
    (vs : List VPort) :
    (sweep f sl l vs).1 =
      vs.map (fun v => if v.alive then v else freshVPort v.path (sl v.path) (f v.path))
  ∧ (sweep f sl l vs).2 =
      vs.flatMap (fun v =>
        if v.alive then []
        else
          Event.closeFd v.master_fd :: Event.log LogLevel.info ::
            ((if l v.path then [Event.unlink v.path] else []) ++
              [Event.createVPort v.path (f v.path), Event.log LogLevel.info]))
  ∧ ((sweep f sl l vs).1.all fun v => v.alive) = true
  ∧ (∀ st inp, (st.vports.all fun v => v.alive) = true →
      ((loopBody st inp).1.vports.all fun v => v.alive) = true) :=
  ⟨sweep_fst f sl l vs, sweep_snd f sl l vs, sweep_all_alive f sl l vs,
   fun st inp h => loopBody_all_alive st inp h⟩

/-- **C6, witness**: on the concrete state `cstDead` (one dead endpoint) the
sweep facts hold and the all-alive preservation is discharged on `cst`. -/
theorem C6_witness :
    ((sweep inC1.freshFd inC1.freshSlave inC1.linkExists cstDead.vports).1.all
        fun v => v.alive) = true
  ∧ ((loopBody cst inC1).1.vports.all fun v => v.alive) = true :=
  ⟨(C6_theorem inC1.freshFd inC1.freshSlave inC1.linkExists cstDead.vports).2.2.1,
   (C6_theorem inC1.freshFd inC1.freshSlave inC1.linkExists cstDead.vports).2.2.2
     cst inC1 (by decide)⟩

/-! ## Claim C7 -/

theorem closedFds_append (a b : List Event) :
    closedFds (a ++ b) = closedFds a ++ closedFds b := by
  induction a with
  | nil => rfl
  | cons e r ih => cases e <;> simp [closedFds, ih]

theorem unlinked_append (a b : List Event) :
    unlinked (a ++ b) = unlinked a ++ unlinked b := by
  induction a with
  | nil => rfl
  | cons e r ih => cases e <;> simp [unlinked, ih]

theorem serCloseCount_append (a b : List Event) :
    serCloseCount (a ++ b) = serCloseCount a + serCloseCount b := by
  induction a with
  | nil => simp [serCloseCount]
  | cons e r ih =>
    cases e <;> simp [serCloseCount, ih]
    omega

theorem closeAllVports_eq (cf : Nat → Bool) (vs : List VPort) :
    closeAllVports cf vs = vs.map fun v => Event.closeFd v.master_fd := by
  induction vs with
  | nil => rfl
  | cons v rest ih =>
    by_cases h : cf v.master_fd = true <;> simp [closeAllVports, h, ih]

theorem closedFds_removeLinks (lnk : String → Bool) (ps : List String) :
    closedFds (removeLinks lnk ps) = [] := by
  induction ps with
  | nil => rfl
  | cons p rest ih =>
    by_cases h : lnk p = true <;> simp [removeLinks, h, closedFds_append, closedFds, ih]

theorem unlinked_removeLinks (lnk : String → Bool) (ps : List String) :
    unlinked (removeLinks lnk ps) = ps.filter lnk := by
  induction ps with
  | nil => rfl
  | cons p rest ih =>
    by_cases h : lnk p = true <;>
      simp [removeLinks, h, unlinked_append, unlinked, ih, List.filter_cons]

theorem serCloseCount_removeLinks (lnk : String → Bool) (ps : List String) :
    serCloseCount (removeLinks lnk ps) = 0 := by
  induction ps with
  | nil => rfl
  | cons p rest ih =>
    by_cases h : lnk p = true <;>
      simp [removeLinks, h, serCloseCount_append, serCloseCount, ih]

/-- **C7, counterexample.**  The claim says the shutdown handler closes every
handle the process owns, including the real-device handle.  `cleanup`
(lines 84–95) never references the serial handle: on a concrete run its trace
contains the endpoint close and the symlink removals but no `ser.close()`
call (`serCloseCount = 0`), even though the process then exits. -/
theorem C7_counterexample :
    serCloseCount (cleanup noFail allLinks cstIdle.vports) = 0
      ∧ Event.exitOk ∈ cleanup noFail allLinks cstIdle.vports
      ∧ Event.closeFd 5 ∈ cleanup noFail allLinks cstIdle.vports := by
  decide

/-- **C7, amended.**  On a termination request, `cleanup` closes every
endpoint controller handle (first conjunct), removes exactly the published
alias paths that exist as symlinks (second conjunct), ends by exiting with
success status (third conjunct), behaves identically whatever close errors
occur (fourth conjunct: the trace does not depend on the close-failure
oracle), and never closes the real-device handle (fifth conjunct). -/
theorem C7_theorem (cf cf2 : Nat → Bool) (lnk : String → Bool) (vs : List VPort) :
    closedFds (cleanup cf lnk vs) = vs.map VPort.master_fd
  ∧ unlinked (cleanup cf lnk vs) = VPORTS.filter lnk
  ∧ (cleanup cf lnk vs).getLast? = some Event.exitOk
  ∧ cleanup cf lnk vs = cleanup cf2 lnk vs
  ∧ serCloseCount (cleanup cf lnk vs) = 0 := by
  refine ⟨?_, ?_, ?_, ?_, ?_⟩
  · simp [cleanup, closedFds, closedFds_append, closeAllVports_eq,
      closedFds_removeLinks]
    induction vs with
    | nil => rfl
    | cons v rest ih => simp [closedFds, ih]
  · simp [cleanup, unlinked, unlinked_append, closeAllVports_eq,
      unlinked_removeLinks]
    induction vs with
    | nil => rfl
    | cons v rest ih => simp [unlinked, ih]
  · rw [show cleanup cf lnk vs =
        (Event.log LogLevel.info :: (closeAllVports cf vs ++ removeLinks lnk VPORTS))
          ++ [Event.exitOk] from by simp [cleanup]]
    exact List.getLast?_concat _
  · simp [cleanup, closeAllVports_eq]
  · simp [cleanup, serCloseCount, serCloseCount_append, closeAllVports_eq,
      serCloseCount_removeLinks]
    induction vs with
    | nil => rfl
    | cons v rest ih => simp [serCloseCount, ih]

/-! ## Claim C8 -/

theorem open_serial_spec (n : Nat) : ∀ (att : Nat → Option Nat) (h fuel : Nat),
    (∀ k, k < n → att k = none) → att n = some h → n < fuel →
    open_serial att fuel = some (h, retryEvents n h) := by
  induction n with
  | zero =>
    intro att h fuel hk hn hfuel
    cases fuel with
    | zero => exact absurd hfuel (by omega)
    | succ f => simp [open_serial, hn, retryEvents]
  | succ m ih =>
    intro att h fuel hk hn hfuel
    cases fuel with
    | zero => exact absurd hfuel (by omega)
    | succ f =>
      have h0 : att 0 = none := hk 0 (by omega)
      have hrec := ih (fun k => att (k + 1)) h f
        (fun k hkm => hk (k + 1) (by omega)) hn (by omega)
      simp [open_serial, h0, hrec, retryEvents]

theorem open_serial_none (fuel : Nat) : ∀ (att : Nat → Option Nat),
    (∀ k, k < fuel → att k = none) → open_serial att fuel = none := by
  induction fuel with
  | zero => intro att hk; rfl
  | succ f ih =>
    intro att hk
    have h0 : att 0 = none := hk 0 (by omega)
    have hrec := ih (fun k => att (k + 1)) (fun k hkf => hk (k + 1) (by omega))
    simp [open_serial, h0, hrec]

/-- **C8.**  `open_serial` keeps attempting until an open succeeds: if the
first `n` attempts fail and attempt `n` succeeds with handle `h`, then for any
sufficient fuel it returns exactly that handle, with one warning log and one
fixed 2-second sleep per failed attempt (`retryEvents`, whose step shape is
the third conjunct) — for every `n`, so there is no retry limit.  If every
attempt within the fuel fails it is still retrying (second conjunct): the
function has no failing or raising outcome at all. -/
theorem C8_theorem (att : Nat → Option Nat) (n h fuel : Nat) :
    ((∀ k, k < n → att k = none) → att n = some h → n < fuel →
      open_serial att fuel = some (h, retryEvents n h))
  ∧ ((∀ k, k < fuel → att k = none) → open_serial att fuel = none)
  ∧ (∀ m hh, retryEvents (m + 1) hh =
      Event.log LogLevel.warning :: Event.sleepSec 2 :: retryEvents m hh) :=
  ⟨fun hk hn hf => open_serial_spec n att h fuel hk hn hf,
   fun hk => open_serial_none fuel att hk,
   fun _ _ => rfl⟩

/-- **C8, witness**: with two failing attempts and a success on the third
(`att8`), `open_serial` returns handle 7 after two warning/sleep pairs; with
every attempt failing (`attNone`) it is still retrying when the fuel runs
out. -/
theorem C8_witness :
    open_serial att8 5 = some (7, retryEvents 2 7) ∧ open_serial attNone 4 = none :=
  ⟨(C8_theorem att8 2 7 5).1 (by decide) (by decide) (by decide),
   (C8_theorem attNone 0 0 4).2.1 (by decide)⟩

/-! ## Claim C9 -/

/-- **C9, counterexample.**  The claim says every error condition other than
an expected would-block produces at least one log entry, naming the
signal-interrupted readiness wait among the cases.  On the concrete iteration
`loopBody cstIdle inEintr` the `select` call is interrupted (`EINTR`, line
130) and the iteration's trace is empty — no log entry at all — while `EINTR`
is not a would-block condition. -/
theorem C9_counterexample :
    (loopBody cstIdle inEintr).2.1 = [] ∧ wouldBlock Errno.eintr = false := by
  decide

/-- **C9, amended.**  A signal-interrupted readiness wait, a would-block or
signal-interrupted endpoint read, and a peer-gone (`EIO`) idle-probe result
are each dropped silently, with no log entry (first three conjuncts); every
other error outcome in the loop produces at least one log entry: any other
endpoint-read failure, the end-of-stream disconnect, any broadcast write
failure (including the skipped `EAGAIN`/`EIO`, logged at debug), any
idle-probe failure other than `EIO`, and a device read/write failure (whose
reconnection events always carry a warning). -/
theorem C9_theorem (st : MuxState) (inp : IterInput) :
    (inp.sel = SelectResult.eintr → (loopBody st inp).2.1 = [])
  ∧ (∀ v : VPort, (handleVportRead (RRes.err Errno.eintr) v).2.1 = []
      ∧ (handleVportRead (RRes.err Errno.eagain) v).2.1 = [])
  ∧ (∀ v : VPort, (probeOne (RRes.err Errno.eio) v).2 = [])
  ∧ (∀ (v : VPort) (e : Errno), e ≠ Errno.eagain → e ≠ Errno.eintr →
      ∃ lvl, Event.log lvl ∈ (handleVportRead (RRes.err e) v).2.1)
  ∧ (∀ v : VPort, Event.log LogLevel.info ∈ (handleVportRead (RRes.ok []) v).2.1)
  ∧ (∀ (v : VPort) (e : Errno), ∃ lvl, Event.log lvl ∈ bcastEvents (WRes.err e) v)
  ∧ (∀ (v : VPort) (e : Errno), e ≠ Errno.eio →
      ∃ lvl, Event.log lvl ∈ (probeOne (RRes.err e) v).2)
  ∧ (∀ hh, Event.log LogLevel.warning ∈ serFailEvents hh) := by
  refine ⟨?_, ?_, ?_, ?_, ?_, ?_, ?_, ?_⟩
  · intro hsel
    simp [loopBody, hsel]
  · intro v
    exact ⟨by simp [handleVportRead], by simp [handleVportRead]⟩
  · intro v
    simp [probeOne]
  · intro v e h1 h2
    cases e with
    | eagain => exact absurd rfl h1
    | eintr => exact absurd rfl h2
    | eio => exact ⟨LogLevel.info, by simp [handleVportRead]⟩
    | other n => exact ⟨LogLevel.warning, by simp [handleVportRead]⟩
  · intro v
    simp [handleVportRead]
  · intro v e
    cases e with
    | eagain => exact ⟨LogLevel.debug, by simp [bcastEvents]⟩
    | eio => exact ⟨LogLevel.debug, by simp [bcastEvents]⟩
    | eintr => exact ⟨LogLevel.warning, by simp [bcastEvents]⟩
    | other n => exact ⟨LogLevel.warning, by simp [bcastEvents]⟩
  · intro v e he
    cases e with
    | eagain => exact ⟨LogLevel.info, by simp [probeOne]⟩
    | eintr => exact ⟨LogLevel.warning, by simp [probeOne]⟩
    | eio => exact absurd rfl he
    | other n => exact ⟨LogLevel.warning, by simp [probeOne]⟩
  · intro hh
    simp [serFailEvents]

/-- **C9, witness**: the silent-`EINTR` conjunct discharged on the concrete
interrupted iteration, and the logging conjuncts discharged for a fatal
endpoint-read errno and a would-block probe result. -/
theorem C9_witness :
    (loopBody cstIdle inEintr).2.1 = []
  ∧ (∃ lvl, Event.log lvl ∈ (handleVportRead (RRes.err (Errno.other 3))
      { master_fd := 5, path := "/dev/ttyV0", slave_name := "/dev/pts/9",
        alive := true, idle := false }).2.1)
  ∧ (∃ lvl, Event.log lvl ∈ (probeOne (RRes.err Errno.eagain)
      { master_fd := 5, path := "/dev/ttyV0", slave_name := "/dev/pts/9",
        alive := true, idle := true }).2) :=
  ⟨(C9_theorem cstIdle inEintr).1 rfl,
   (C9_theorem cstIdle inEintr).2.2.2.1
     { master_fd := 5, path := "/dev/ttyV0", slave_name := "/dev/pts/9",
       alive := true, idle := false } (Errno.other 3) (by decide) (by decide),
   (C9_theorem cstIdle inEintr).2.2.2.2.2.2.1
     { master_fd := 5, path := "/dev/ttyV0", slave_name := "/dev/pts/9",
       alive := true, idle := true } Errno.eagain (by decide)⟩

/-! ## Claim C10 -/

/-- **C10.**  The idle probe discards whatever byte it reads: its trace
consists only of the probing reads and log lines — in particular no write to
the real device and no write to any endpoint (first conjunct); the probe's
result is identical whether the read returned data or nothing (second
conjunct); and the whole probe step is unchanged when every successful probe
read is replaced by an empty one (third conjunct) — so a byte a client wrote
before the endpoint was marked active is neither forwarded to the device nor
retained for a later iteration. -/
theorem C10_theorem (p : Nat → RRes) (vs : List VPort) :
    ((probeStep p vs).2.all probeTraceOnly) = true
  ∧ (∀ v d, probeOne (RRes.ok d) v = probeOne (RRes.ok []) v)
  ∧ probeStep (fun fd => match p fd with | RRes.ok _ => RRes.ok [] | r => r) vs
      = probeStep p vs := by
  refine ⟨?_, fun v d => rfl, ?_⟩
  · rw [List.all_eq_true]
    intro e he
    rw [probeStep_snd] at he
    rcases List.mem_flatMap.mp he with ⟨x, hx, he2⟩
    by_cases hb : (x.alive && x.idle) = true
    · rw [if_pos hb] at he2
      rcases List.mem_cons.mp he2 with rfl | he3
      · rfl
      · rcases probeOne_events _ _ e he3 with ⟨lvl, rfl⟩
        rfl
    · rw [if_neg hb] at he2
      simp at he2
  · induction vs with
    | nil => rfl
    | cons v rest ih =>
      have hone : probeOne (match p v.master_fd with
          | RRes.ok _ => RRes.ok []
          | r => r) v = probeOne (p v.master_fd) v := by
        cases hp : p v.master_fd with
        | ok d => rfl
        | err e => rfl
      by_cases hv : (v.alive && v.idle) = true <;> simp [probeStep, hv, hone, ih]

end SerialMux
